import Mathlib

/-!
# Verification of the RocketShip run-orchestration / debate engine

Shallow embedding of `backend/main.py` (the run orchestration and
concurrent-debate engine of the RocketShip repository), together with
proofs settling the frozen claims about it.

Modelling conventions:
* Python floats carrying scores and confidences are modelled as `Int`;
  every use in the orchestration code is a comparison or a copy, so only
  the ordering matters.  The single piece of float arithmetic,
  `int(total * 0.75)` in `select_debate_candidates`, equals
  `3 * total / 4` in natural division for every list length arising here.
* Python dicts are modelled as functions into `Option`, Python lists as
  `List`, stable `sorted` as `List.mergeSort` (both are stable).
* External collaborators (news fetch, the four role calls, the judge
  call) and the shared skip file are concurrency / IO boundaries; a
  `DebateEnv` record supplies, per candidate, the outcome of each
  collaborator call and the value the skip set is observed to have at
  each of the code's named read checkpoints.
-/

namespace RocketShip

/-- Python's `str.upper()` restricted to the ASCII verdict strings used
by the pipeline (`Char.toUpper` only upcases ASCII, like `.upper()` on
ASCII input). -/
def pyUpper (s : String) : String :=
  ⟨s.data.map Char.toUpper⟩

/-- The three ordinal verdict categories (`BUY`/`HOLD`/`SELL`). -/
inductive Verdict where
  | BUY
  | HOLD
  | SELL
deriving DecidableEq, Repr

/-- `main.py:1090-1097` and `main.py:1649-1655`: take the raw judge
verdict (Python `judge.get('verdict') or 'HOLD'`, so `None` and the
empty string fall back to `HOLD`), uppercase it, and map the judge's
native vocabulary onto BUY/HOLD/SELL. -/
def normalizeVerdict (raw : Option String) : Verdict :=
  let base := match raw with
    | none => "HOLD"
    | some s => if s = "" then "HOLD" else s
  let u := pyUpper base
  if u = "ENTER" ∨ u = "BUY" then .BUY
  else if u = "EXIT" ∨ u = "SELL" ∨ u = "WAIT" then .SELL
  else .HOLD

/-- One entry of `rocket_scores.json` (the fields the orchestration
reads; opaque scoring fields are out of scope). -/
structure ScoreEntry where
  ticker : String
  rocket_score : Int
  sector : String := "Unknown"
  tags : List String := []
deriving DecidableEq, Repr

/-- A debate candidate as built by `select_debate_candidates`
(`main.py:553-631`). -/
structure Candidate where
  ticker : String
  rocket_score : Int
  sector : String
  rank : Nat
  selection_group : String
deriving DecidableEq, Repr

/-- Helper for `rankMap`: processes the enumerated score list left to
right, each entry overwriting the map at its ticker — the semantics of
the Python dict comprehension. -/
def rankMapGo : Nat → List ScoreEntry → (String → Nat) → (String → Nat)
  | _, [], m => m
  | i, s :: rest, m => rankMapGo (i + 1) rest (fun t => if t = s.ticker then i else m t)

/-- `main.py:867`: `rank_map = {s['ticker']: i + 1 for i, s in
enumerate(sorted_scores)}`.  Absent tickers map to `0`, matching the
`rank_map.get(s['ticker'], 0)` read in the extras group. -/
def rankMap (sorted_scores : List ScoreEntry) : String → Nat :=
  rankMapGo 1 sorted_scores (fun _ => 0)

/-- `main.py:868`: `ticker_scores = {s['ticker']: s for s in scores}` —
dict comprehension, later entries overwrite earlier ones. -/
def tickerScores (scores : List ScoreEntry) (t : String) : Option ScoreEntry :=
  scores.reverse.find? (fun s => s.ticker = t)

/-- Build the candidate record for one selected score entry
(`main.py:573-579` and analogous blocks; every group stores
`rank_map[s['ticker']]` and its group tag). -/
def mkCandidate (rank_map : String → Nat) (group : String) (s : ScoreEntry) : Candidate :=
  { ticker := s.ticker
    rocket_score := s.rocket_score
    sector := s.sector
    rank := rank_map s.ticker
    selection_group := group }

/-- The descending-score comparison used by `sorted(..., key=lambda x:
x['rocket_score'], reverse=True)`; `mergeSort` with this relation is the
same stable descending sort. -/
def scoreDescLE (a b : ScoreEntry) : Bool :=
  decide (b.rocket_score ≤ a.rocket_score)

/-- `main.py:604-615`: walk the (descending-sorted) bottom quartile and
take the first `k` entries whose ticker is not already selected,
recording each taken ticker as selected. -/
def pickBestOfWorst : List ScoreEntry → List String → Nat → List ScoreEntry
  | [], _, _ => []
  | s :: rest, existing, k =>
    if k = 0 then []
    else if s.ticker ∈ existing then pickBestOfWorst rest existing k
    else s :: pickBestOfWorst rest (s.ticker :: existing) (k - 1)

/-- `main.py:617-629`: user-specified extras — each extra ticker not
already selected and present in the score map is appended, with rank
`rank_map.get(ticker, 0)`. -/
def pickExtras (rank_map : String → Nat) : List String → List String → List ScoreEntry → List Candidate
  | [], _, _ => []
  | t :: ts, existing, ss =>
    if t ∉ existing then
      match tickerScores ss t with
      | some s => mkCandidate rank_map "extra" s :: pickExtras rank_map ts (t :: existing) ss
      | none => pickExtras rank_map ts existing ss
    else pickExtras rank_map ts existing ss

/-- Group A (`main.py:571-580`): `sorted_scores[:min(23, total)]`, the
top 23 by RocketScore rank. -/
def groupTop23 (ss : List ScoreEntry) (rm : String → Nat) : List Candidate :=
  (ss.take 23).map (mkCandidate rm "top23")

/-- Group B (`main.py:582-591`): `sorted_scores[23:min(28, total)]`,
ranks 24-28. -/
def groupEdge (ss : List ScoreEntry) (rm : String → Nat) : List Candidate :=
  ((ss.drop 23).take 5).map (mkCandidate rm "edge")

/-- The contents of `existing_tickers` after groups A and B. -/
def existingAB (ss : List ScoreEntry) (rm : String → Nat) : List String :=
  (groupTop23 ss rm ++ groupEdge ss rm).map Candidate.ticker

/-- `main.py:598-602`: the bottom quartile (`sorted_scores[int(total *
0.75):]`, i.e. `drop (3 * total / 4)`) re-sorted by `rocket_score`
descending (Python's stable `sorted(..., reverse=True)`). -/
def bottomSorted (ss : List ScoreEntry) : List ScoreEntry :=
  (ss.drop (3 * ss.length / 4)).mergeSort scoreDescLE

/-- Group C picks (`main.py:596-615`): only when more than 28 stocks
exist, the first 2 not-yet-selected entries of the descending-sorted
bottom quartile. -/
def picksBestOfWorst (ss : List ScoreEntry) (rm : String → Nat) : List ScoreEntry :=
  if 28 < ss.length then pickBestOfWorst (bottomSorted ss) (existingAB ss rm) 2 else []

/-- Group C as candidate records. -/
def groupBestOfWorst (ss : List ScoreEntry) (rm : String → Nat) : List Candidate :=
  (picksBestOfWorst ss rm).map (mkCandidate rm "best_of_worst")

/-- Group D (`main.py:617-629`): extras not already selected and present
in the score list. -/
def groupExtra (ss : List ScoreEntry) (rm : String → Nat) (extras : List String) :
    List Candidate :=
  pickExtras rm extras
    (existingAB ss rm ++ (groupBestOfWorst ss rm).map Candidate.ticker) ss

/-- `select_debate_candidates` (`main.py:553-631`): the four selection
passes appended in source order. -/
def select_debate_candidates (sorted_scores : List ScoreEntry)
    (rank_map : String → Nat) (extras : List String) : List Candidate :=
  groupTop23 sorted_scores rank_map ++ groupEdge sorted_scores rank_map ++
    groupBestOfWorst sorted_scores rank_map ++ groupExtra sorted_scores rank_map extras

/-! ## Lemmas about the rank map -/

theorem rankMapGo_of_not_mem (l : List ScoreEntry) (i : Nat) (m : String → Nat)
    (t : String) (h : t ∉ l.map ScoreEntry.ticker) :
    rankMapGo i l m t = m t := by
  induction l generalizing i m with
  | nil => rfl
  | cons s rest ih =>
    simp only [List.map_cons, List.mem_cons, not_or] at h
    rw [rankMapGo, ih _ _ h.2]
    simp [h.1]

theorem rankMapGo_get (l : List ScoreEntry) (hnd : (l.map ScoreEntry.ticker).Nodup)
    (i : Nat) (m : String → Nat) (j : Nat) (hj : j < l.length) :
    rankMapGo i l m ((l.get ⟨j, hj⟩).ticker) = i + j := by
  induction l generalizing i m j with
  | nil => exact absurd hj (by simp)
  | cons s rest ih =>
    simp only [List.map_cons, List.nodup_cons] at hnd
    cases j with
    | zero =>
      have hget : (s :: rest).get ⟨0, hj⟩ = s := rfl
      rw [hget, rankMapGo, rankMapGo_of_not_mem _ _ _ _ hnd.1]
      simp
    | succ j =>
      have hj' : j < rest.length := by simpa using hj
      have hget : (s :: rest).get ⟨j + 1, hj⟩ = rest.get ⟨j, hj'⟩ := rfl
      rw [hget, rankMapGo, ih hnd.2 (i + 1) _ j hj']
      omega

theorem rankMap_get (l : List ScoreEntry) (hnd : (l.map ScoreEntry.ticker).Nodup)
    (j : Nat) (hj : j < l.length) :
    rankMap l ((l.get ⟨j, hj⟩).ticker) = j + 1 := by
  rw [rankMap, rankMapGo_get l hnd 1 _ j hj]
  omega

theorem rankMap_mem (l : List ScoreEntry) (hnd : (l.map ScoreEntry.ticker).Nodup)
    (t : String) (ht : t ∈ l.map ScoreEntry.ticker) :
    ∃ j : Fin l.length, (l.get j).ticker = t ∧ rankMap l t = j.1 + 1 := by
  obtain ⟨s, hs, rfl⟩ := List.mem_map.mp ht
  obtain ⟨j, rfl⟩ := List.mem_iff_get.mp hs
  exact ⟨j, rfl, rankMap_get l hnd j.1 j.2⟩

/-! ## Lemmas about `tickerScores` -/

theorem tickerScores_eq_some (ss : List ScoreEntry) (t : String) (s : ScoreEntry)
    (h : tickerScores ss t = some s) : s ∈ ss ∧ s.ticker = t := by
  constructor
  · exact List.mem_reverse.mp (List.mem_of_find?_eq_some h)
  · have := List.find?_some h
    simpa using this

/-! ## Lemmas about `pickBestOfWorst` -/

theorem pickBestOfWorst_sub : ∀ (l : List ScoreEntry) (ex : List String) (k : Nat),
    ∀ s ∈ pickBestOfWorst l ex k, s ∈ l ∧ s.ticker ∉ ex
  | [], _, _ => by simp [pickBestOfWorst]
  | s :: rest, ex, k => by
    intro p hp
    rw [pickBestOfWorst] at hp
    by_cases hk : k = 0
    · simp [hk] at hp
    · rw [if_neg hk] at hp
      by_cases hmem : s.ticker ∈ ex
      · rw [if_pos hmem] at hp
        have := pickBestOfWorst_sub rest ex k p hp
        exact ⟨List.mem_cons_of_mem _ this.1, this.2⟩
      · rw [if_neg hmem] at hp
        rcases List.mem_cons.mp hp with rfl | hp
        · exact ⟨List.mem_cons_self _ _, hmem⟩
        · have := pickBestOfWorst_sub rest (s.ticker :: ex) (k - 1) p hp
          exact ⟨List.mem_cons_of_mem _ this.1,
            fun hc => this.2 (List.mem_cons_of_mem _ hc)⟩

theorem pickBestOfWorst_tickers_nodup :
    ∀ (l : List ScoreEntry) (ex : List String) (k : Nat),
    ((pickBestOfWorst l ex k).map ScoreEntry.ticker).Nodup
  | [], _, _ => by simp [pickBestOfWorst]
  | s :: rest, ex, k => by
    rw [pickBestOfWorst]
    by_cases hk : k = 0
    · simp [hk]
    · rw [if_neg hk]
      by_cases hmem : s.ticker ∈ ex
      · rw [if_pos hmem]
        exact pickBestOfWorst_tickers_nodup rest ex k
      · rw [if_neg hmem]
        refine List.nodup_cons.mpr ⟨?_, pickBestOfWorst_tickers_nodup rest _ _⟩
        intro hc
        obtain ⟨p, hp, hpt⟩ := List.mem_map.mp hc
        exact (pickBestOfWorst_sub rest (s.ticker :: ex) (k - 1) p hp).2
          (hpt ▸ List.mem_cons_self _ _)

theorem pickBestOfWorst_ge :
    ∀ (l : List ScoreEntry) (ex : List String) (k : Nat),
    l.Pairwise (fun a b => b.rocket_score ≤ a.rocket_score) →
    ∀ c ∈ pickBestOfWorst l ex k, ∀ s ∈ l, s.ticker ∉ ex →
      s.ticker ∉ (pickBestOfWorst l ex k).map ScoreEntry.ticker →
      s.rocket_score ≤ c.rocket_score
  | [], _, _ => by simp [pickBestOfWorst]
  | s :: rest, ex, k => by
    intro hsort c hc s' hs' hex hpicks
    rw [pickBestOfWorst] at hc hpicks
    by_cases hk : k = 0
    · simp [hk] at hc
    · rw [if_neg hk] at hc hpicks
      by_cases hmem : s.ticker ∈ ex
      · rw [if_pos hmem] at hc hpicks
        rcases List.mem_cons.mp hs' with rfl | hs'
        · exact absurd hmem hex
        · exact pickBestOfWorst_ge rest ex k (List.Pairwise.of_cons hsort)
            c hc s' hs' hex hpicks
      · rw [if_neg hmem] at hc hpicks
        simp only [List.map_cons, List.mem_cons, not_or] at hpicks
        obtain ⟨hp1, hp2⟩ := hpicks
        rcases List.mem_cons.mp hs' with hss | hs'
        · exact absurd (hss ▸ rfl) hp1
        · rcases List.mem_cons.mp hc with hcs | hc
          · exact hcs ▸ List.rel_of_pairwise_cons hsort hs'
          · refine pickBestOfWorst_ge rest (s.ticker :: ex) (k - 1)
              (List.Pairwise.of_cons hsort) c hc s' hs' ?_ hp2
            intro h
            rcases List.mem_cons.mp h with h | h
            · exact hp1 h
            · exact hex h

/-! ## Lemmas about `pickExtras` -/

theorem pickExtras_spec (rm : String → Nat) :
    ∀ (ts ex : List String) (ss : List ScoreEntry),
    ∀ c ∈ pickExtras rm ts ex ss, c.ticker ∉ ex ∧
      ∃ s ∈ ss, s.ticker = c.ticker ∧ c = mkCandidate rm "extra" s
  | [], _, _ => by simp [pickExtras]
  | t :: ts, ex, ss => by
    intro c hc
    rw [pickExtras] at hc
    by_cases hmem : t ∉ ex
    · rw [if_pos hmem] at hc
      cases hfind : tickerScores ss t with
      | none =>
        rw [hfind] at hc
        exact pickExtras_spec rm ts ex ss c hc
      | some s =>
        rw [hfind] at hc
        obtain ⟨hmemss, hts⟩ := tickerScores_eq_some ss t s hfind
        rcases List.mem_cons.mp hc with rfl | hc
        · exact ⟨by simpa [mkCandidate, hts] using hmem, s, hmemss, rfl, rfl⟩
        · have := pickExtras_spec rm ts (t :: ex) ss c hc
          exact ⟨fun h => this.1 (List.mem_cons_of_mem _ h), this.2⟩
    · rw [if_neg hmem] at hc
      exact pickExtras_spec rm ts ex ss c hc

theorem pickExtras_tickers_nodup (rm : String → Nat) :
    ∀ (ts ex : List String) (ss : List ScoreEntry),
    ((pickExtras rm ts ex ss).map Candidate.ticker).Nodup
  | [], _, _ => by simp [pickExtras]
  | t :: ts, ex, ss => by
    rw [pickExtras]
    by_cases hmem : t ∉ ex
    · rw [if_pos hmem]
      cases hfind : tickerScores ss t with
      | none => exact pickExtras_tickers_nodup rm ts ex ss
      | some s =>
        obtain ⟨_, hts⟩ := tickerScores_eq_some ss t s hfind
        refine List.nodup_cons.mpr ⟨?_, pickExtras_tickers_nodup rm ts _ ss⟩
        intro hc
        obtain ⟨p, hp, hpt⟩ := List.mem_map.mp hc
        refine (pickExtras_spec rm ts (t :: ex) ss p hp).1 ?_
        rw [hpt]
        simp [mkCandidate, hts]
    · rw [if_neg hmem]
      exact pickExtras_tickers_nodup rm ts ex ss

/-! ## Lemmas about the selection groups -/

theorem tickers_groupTop23 (ss : List ScoreEntry) (rm : String → Nat) :
    (groupTop23 ss rm).map Candidate.ticker = (ss.take 23).map ScoreEntry.ticker := by
  rw [groupTop23, List.map_map]
  rfl

theorem tickers_groupEdge (ss : List ScoreEntry) (rm : String → Nat) :
    (groupEdge ss rm).map Candidate.ticker = ((ss.drop 23).take 5).map ScoreEntry.ticker := by
  rw [groupEdge, List.map_map]
  rfl

theorem existingAB_eq (ss : List ScoreEntry) (rm : String → Nat) :
    existingAB ss rm = (ss.take 28).map ScoreEntry.ticker := by
  have h28 : ss.take 28 = ss.take 23 ++ (ss.drop 23).take 5 := by
    have := List.take_add ss 23 5
    simpa using this
  rw [existingAB, List.map_append, tickers_groupTop23, tickers_groupEdge, h28,
    List.map_append]

theorem tickers_groupBestOfWorst (ss : List ScoreEntry) (rm : String → Nat) :
    (groupBestOfWorst ss rm).map Candidate.ticker
      = (picksBestOfWorst ss rm).map ScoreEntry.ticker := by
  rw [groupBestOfWorst, List.map_map]
  rfl

theorem picksBestOfWorst_mem (ss : List ScoreEntry) (rm : String → Nat)
    (p : ScoreEntry) (hp : p ∈ picksBestOfWorst ss rm) :
    p ∈ ss.drop (3 * ss.length / 4) ∧ p.ticker ∉ existingAB ss rm := by
  rw [picksBestOfWorst] at hp
  by_cases h28 : 28 < ss.length
  · rw [if_pos h28] at hp
    have := pickBestOfWorst_sub _ _ _ p hp
    exact ⟨(List.mergeSort_perm _ scoreDescLE).subset this.1, this.2⟩
  · rw [if_neg h28] at hp
    exact absurd hp (List.not_mem_nil p)

theorem tickers_select (ss : List ScoreEntry) (rm : String → Nat) (extras : List String) :
    (select_debate_candidates ss rm extras).map Candidate.ticker
      = (ss.take 28).map ScoreEntry.ticker
        ++ (picksBestOfWorst ss rm).map ScoreEntry.ticker
        ++ (groupExtra ss rm extras).map Candidate.ticker := by
  rw [select_debate_candidates]
  simp only [List.map_append]
  rw [tickers_groupBestOfWorst, ← List.map_append, ← existingAB_eq ss rm]
  rw [existingAB, List.map_append]

/-- Every selected candidate comes from a score entry of the input list,
with its recorded rank read off the rank map at its ticker. -/
theorem select_candidate_src (ss : List ScoreEntry) (rm : String → Nat)
    (extras : List String) :
    ∀ c ∈ select_debate_candidates ss rm extras,
      ∃ s ∈ ss, c.ticker = s.ticker ∧ c.rank = rm s.ticker := by
  intro c hc
  rw [select_debate_candidates] at hc
  rcases List.mem_append.mp hc with hc | hD
  · rcases List.mem_append.mp hc with hc | hC
    · rcases List.mem_append.mp hc with hA | hB
      · obtain ⟨s, hs, rfl⟩ := List.mem_map.mp hA
        exact ⟨s, List.mem_of_mem_take hs, rfl, rfl⟩
      · obtain ⟨s, hs, rfl⟩ := List.mem_map.mp hB
        exact ⟨s, List.mem_of_mem_drop (List.mem_of_mem_take hs), rfl, rfl⟩
    · obtain ⟨p, hp, rfl⟩ := List.mem_map.mp hC
      have := (picksBestOfWorst_mem ss rm p hp).1
      exact ⟨p, List.mem_of_mem_drop this, rfl, rfl⟩
  · obtain ⟨-, s, hs, hts, rfl⟩ := pickExtras_spec rm extras _ ss c hD
    exact ⟨s, hs, by simp [mkCandidate]⟩

/-- C6 counterpart of the nodup half, stated on the raw groups. -/
theorem select_tickers_nodup (ss : List ScoreEntry) (rm : String → Nat)
    (extras : List String) (hnd : (ss.map ScoreEntry.ticker).Nodup) :
    ((select_debate_candidates ss rm extras).map Candidate.ticker).Nodup := by
  rw [tickers_select]
  have n1 : ((ss.take 28).map ScoreEntry.ticker).Nodup :=
    hnd.sublist ((ss.take_sublist 28).map ScoreEntry.ticker)
  have n2 : ((picksBestOfWorst ss rm).map ScoreEntry.ticker).Nodup := by
    rw [picksBestOfWorst]
    by_cases h28 : 28 < ss.length
    · rw [if_pos h28]; exact pickBestOfWorst_tickers_nodup _ _ _
    · rw [if_neg h28]; simp
  have n3 : ((groupExtra ss rm extras).map Candidate.ticker).Nodup :=
    pickExtras_tickers_nodup rm extras _ ss
  have d12 : ((ss.take 28).map ScoreEntry.ticker).Disjoint
      ((picksBestOfWorst ss rm).map ScoreEntry.ticker) := by
    rw [List.disjoint_right]
    intro t ht
    obtain ⟨p, hp, rfl⟩ := List.mem_map.mp ht
    have := (picksBestOfWorst_mem ss rm p hp).2
    rwa [existingAB_eq] at this
  have d123 : (((ss.take 28).map ScoreEntry.ticker)
      ++ (picksBestOfWorst ss rm).map ScoreEntry.ticker).Disjoint
      ((groupExtra ss rm extras).map Candidate.ticker) := by
    rw [List.disjoint_right]
    intro t ht
    obtain ⟨c, hc, rfl⟩ := List.mem_map.mp ht
    have := (pickExtras_spec rm extras _ ss c hc).1
    rw [existingAB_eq, tickers_groupBestOfWorst] at this
    exact this
  exact (List.nodup_append.mpr ⟨List.nodup_append.mpr ⟨n1, n2, d12⟩, n3, d123⟩)

/-- **C6.** For every ranked input list (distinct identifiers, as a
ranking has) and extras list, `select_debate_candidates` applied with
the rank map the pipeline builds at `main.py:866-871` returns a list
with no duplicate tickers, and every returned candidate's recorded rank
is the 1-based position of its ticker in the score-descending input
ranking. -/
theorem select_no_dups_and_ranks_match (ss : List ScoreEntry) (extras : List String)
    (hnd : (ss.map ScoreEntry.ticker).Nodup) :
    ((select_debate_candidates ss (rankMap ss) extras).map Candidate.ticker).Nodup ∧
    ∀ c ∈ select_debate_candidates ss (rankMap ss) extras,
      ∃ j : Fin ss.length, (ss.get j).ticker = c.ticker ∧ c.rank = j.1 + 1 := by
  refine ⟨select_tickers_nodup ss (rankMap ss) extras hnd, ?_⟩
  intro c hc
  obtain ⟨s, hs, hts, hrk⟩ := select_candidate_src ss (rankMap ss) extras c hc
  obtain ⟨j, hjt, hjr⟩ := rankMap_mem ss hnd s.ticker (List.mem_map_of_mem _ hs)
  exact ⟨j, by rw [hjt, hts], by rw [hrk, hjr]⟩

/-- Witness for C6 at a concrete 3-entry ranking with one extra. -/
theorem select_no_dups_and_ranks_match_witness :
    (((List.map ScoreEntry.ticker
        [⟨"AAA", 90, "Tech", []⟩, ⟨"BBB", 80, "Tech", []⟩, ⟨"CCC", 70, "Energy", []⟩]).Nodup) ∧
      (((select_debate_candidates
        [⟨"AAA", 90, "Tech", []⟩, ⟨"BBB", 80, "Tech", []⟩, ⟨"CCC", 70, "Energy", []⟩]
        (rankMap [⟨"AAA", 90, "Tech", []⟩, ⟨"BBB", 80, "Tech", []⟩, ⟨"CCC", 70, "Energy", []⟩])
        ["CCC"]).map Candidate.ticker).Nodup)) := by
  refine ⟨by decide, ?_⟩
  exact (select_no_dups_and_ranks_match
    [⟨"AAA", 90, "Tech", []⟩, ⟨"BBB", 80, "Tech", []⟩, ⟨"CCC", 70, "Energy", []⟩]
    ["CCC"] (by decide)).1

theorem bottomSorted_pairwise (ss : List ScoreEntry) :
    (bottomSorted ss).Pairwise (fun a b => b.rocket_score ≤ a.rocket_score) := by
  have htrans : ∀ a b c : ScoreEntry, scoreDescLE a b → scoreDescLE b c → scoreDescLE a c := by
    intro a b c hab hbc
    simp only [scoreDescLE, decide_eq_true_eq] at *
    exact le_trans hbc hab
  have htotal : ∀ a b : ScoreEntry, scoreDescLE a b || scoreDescLE b a := by
    intro a b
    simp only [scoreDescLE, Bool.or_eq_true, decide_eq_true_eq]
    exact le_total b.rocket_score a.rocket_score
  have h := List.sorted_mergeSort htrans htotal (ss.drop (3 * ss.length / 4))
  exact h.imp (fun hab => by simpa [scoreDescLE] using hab)

/-- **C7.** For every ranking, every member of the "best-of-worst" group
has a rank strictly inside the bottom quartile (its rank exceeds the
quartile boundary `int(total * 0.75)` and is at most `total`), and its
score is ≥ the score of every bottom-quartile entry that was not
selected at all. -/
theorem best_of_worst_within_quartile (ss : List ScoreEntry) (extras : List String)
    (hnd : (ss.map ScoreEntry.ticker).Nodup) :
    ∀ c ∈ select_debate_candidates ss (rankMap ss) extras,
      c.selection_group = "best_of_worst" →
      (3 * ss.length / 4 < c.rank ∧ c.rank ≤ ss.length) ∧
      ∀ s ∈ ss.drop (3 * ss.length / 4),
        s.ticker ∉ (select_debate_candidates ss (rankMap ss) extras).map Candidate.ticker →
        s.rocket_score ≤ c.rocket_score := by
  intro c hc hgroup
  have hcsel := hc
  rw [select_debate_candidates] at hc
  rcases List.mem_append.mp hc with hc' | hD
  · rcases List.mem_append.mp hc' with hc'' | hC
    · rcases List.mem_append.mp hc'' with hA | hB
      · obtain ⟨s, _, rfl⟩ := List.mem_map.mp hA
        have htag : (mkCandidate (rankMap ss) "top23" s).selection_group = "top23" := rfl
        rw [htag] at hgroup
        exact absurd hgroup (by decide)
      · obtain ⟨s, _, rfl⟩ := List.mem_map.mp hB
        have htag : (mkCandidate (rankMap ss) "edge" s).selection_group = "edge" := rfl
        rw [htag] at hgroup
        exact absurd hgroup (by decide)
    · obtain ⟨p, hp, rfl⟩ := List.mem_map.mp hC
      obtain ⟨hdrop, hnotAB⟩ := picksBestOfWorst_mem ss (rankMap ss) p hp
      have h28 : 28 < ss.length := by
        by_contra h28
        rw [picksBestOfWorst, if_neg h28] at hp
        exact absurd hp (List.not_mem_nil p)
      constructor
      · -- rank bounds
        obtain ⟨i, hi, hgi⟩ := List.mem_iff_getElem.mp hdrop
        rw [List.getElem_drop] at hgi
        have hlen : 3 * ss.length / 4 + i < ss.length := by
          have := List.length_drop (3 * ss.length / 4) ss ▸ hi
          omega
        have hrk : (mkCandidate (rankMap ss) "best_of_worst" p).rank
            = 3 * ss.length / 4 + i + 1 := by
          have : p.ticker = (ss.get ⟨3 * ss.length / 4 + i, hlen⟩).ticker := by
            rw [← hgi]
            rfl
          show rankMap ss p.ticker = _
          rw [this, rankMap_get ss hnd _ hlen]
        rw [hrk]
        omega
      · -- score dominance over non-selected quartile members
        intro s hs hnotsel
        rw [tickers_select] at hnotsel
        simp only [List.mem_append, not_or] at hnotsel
        have hsBS : s ∈ bottomSorted ss :=
          ((List.mergeSort_perm _ scoreDescLE).mem_iff).mpr hs
        have hpicksEq : picksBestOfWorst ss (rankMap ss)
            = pickBestOfWorst (bottomSorted ss) (existingAB ss (rankMap ss)) 2 := by
          rw [picksBestOfWorst, if_pos h28]
        rw [hpicksEq] at hp
        have hscore := pickBestOfWorst_ge (bottomSorted ss)
          (existingAB ss (rankMap ss)) 2 (bottomSorted_pairwise ss) p hp s hsBS
          (by rw [existingAB_eq]; exact hnotsel.1.1)
          (by rw [← hpicksEq]; exact hnotsel.1.2)
        exact hscore
  · obtain ⟨-, s, _, _, rfl⟩ := pickExtras_spec (rankMap ss) extras _ ss c hD
    have htag : (mkCandidate (rankMap ss) "extra" s).selection_group = "extra" := rfl
    rw [htag] at hgroup
    exact absurd hgroup (by decide)

/-- A 29-entry score-descending ranking used as concrete input. -/
def exampleRanking29 : List ScoreEntry :=
  (List.range 29).map (fun i => { ticker := s!"T{i}", rocket_score := (100 - i : Int) })

unseal List.merge List.mergeSort

/-- Witness for C7: in the 29-entry ranking, the best-of-worst pick is
the entry at rank 29, inside the bottom quartile (boundary 21). -/
theorem best_of_worst_within_quartile_witness :
    (⟨"T28", 72, "Unknown", 29, "best_of_worst"⟩ : Candidate) ∈
      select_debate_candidates exampleRanking29 (rankMap exampleRanking29) [] ∧
    (3 * exampleRanking29.length / 4
        < (⟨"T28", 72, "Unknown", 29, "best_of_worst"⟩ : Candidate).rank ∧
      (⟨"T28", 72, "Unknown", 29, "best_of_worst"⟩ : Candidate).rank
        ≤ exampleRanking29.length) := by
  refine ⟨by decide, ?_⟩
  exact (best_of_worst_within_quartile exampleRanking29 [] (by decide)
    ⟨"T28", 72, "Unknown", 29, "best_of_worst"⟩ (by decide) rfl).1

/-! ## The debate engine (`run_debate_pipeline` / `run_single_debate_with_news`) -/

/-- The dict a `call_agent` invocation yields (`main.py:1373-1541`):
either the parsed agent JSON or a stub carrying an explicit failure
marker in `error`.  Only the fields the orchestration later inspects are
kept (free-prose fields like `reasoning`/`raw` are elided);
`judge_timeout` is the flag set by the judge fallback at
`main.py:1623-1630`. -/
structure AgentDict where
  agent : String := ""
  verdict : Option String := none
  confidence : Option Int := none
  tags : Option (List String) := none
  error : Option String := none
  thesis : String := ""
  judge_timeout : Bool := false
deriving DecidableEq, Repr

/-- How one `call_agent` invocation resolves, as seen from the
orchestration; the collaborator HTTP call and the skip-set reads inside
`call_agent` are environment inputs.  The heartbeat task's own
`CancelledError` never escapes `call_agent` (the task is awaited under
`except asyncio.CancelledError: pass`, `main.py:1450-1454` and
`1481-1486`), so it contributes no outcome. -/
inductive CallOutcome where
  /-- `main.py:1379-1387`: ticker already in the skip set on entry —
  a skip stub is returned, no HTTP call is made. -/
  | preSkipStub
  /-- `main.py:1423-1424`: skip observed right before the HTTP call —
  a skip `CancelledError` is raised, no HTTP call is made. -/
  | preCallCancel
  /-- `main.py:1444-1461`: response received but skip observed — the
  response is discarded and a skip stub returned. -/
  | postSkipStub
  /-- `main.py:1479-1503`: the call timed out — stub with failure marker. -/
  | timeout
  /-- `main.py:1520-1532`: the call raised — stub with failure marker. -/
  | httpError (msg : String)
  /-- `main.py:1440-1477`: the call succeeded and parsed to `r`. -/
  | success (r : AgentDict)
deriving DecidableEq, Repr

/-- Whether this outcome actually issued the HTTP request. -/
def CallOutcome.callMade : CallOutcome → Bool
  | .preSkipStub => false
  | .preCallCancel => false
  | _ => true

/-- A role-call failure (error or timeout) in the sense of the spec's
failure taxonomy. -/
def CallOutcome.isFailure : CallOutcome → Bool
  | .timeout => true
  | .httpError _ => true
  | _ => false

/-- `call_agent` (`main.py:1373-1541`): an outcome resolves to either a
raised skip `CancelledError` (`Except.error ()`, re-raised at
`main.py:1489-1490` and `1505-1508`) or a returned dict; a failed call
is replaced by a stub whose `error` field is set (fail fast, zero
retries, `main.py:1390` and `1496-1503`). -/
def call_agent (agentType : String) (o : CallOutcome) : Except Unit AgentDict :=
  match o with
  | .preSkipStub =>
    .ok { agent := agentType
          error := some "Skipped by user"
          thesis := agentType ++ " agent skipped" }
  | .preCallCancel => .error ()
  | .postSkipStub =>
    .ok { agent := agentType
          error := some "Skipped by user"
          thesis := agentType ++ " agent skipped" }
  | .timeout =>
    .ok { agent := agentType
          error := some "Timeout"
          thesis := agentType ++ " agent timeout" }
  | .httpError msg =>
    .ok { agent := agentType
          error := some msg
          thesis := "Agent failed" }
  | .success r => .ok r

/-- The named points at which the debate stage re-reads the persisted
skip set via `read_skipped_set`. -/
inductive SkipCheckpoint where
  /-- `main.py:919`, before the candidate's debate begins. -/
  | preLoop
  /-- `main.py:964`, just before launching the per-candidate debate. -/
  | preStart
  /-- `main.py:1336`, after the news fetch. -/
  | afterNews
  /-- `main.py:1573`, after the four role calls complete. -/
  | afterAgents
  /-- `main.py:1598`, right before the judge call. -/
  | preJudge
  /-- `main.py:1618`, inside the judge timeout handler. -/
  | judgeTimeout
  /-- `main.py:978`, inside the 20-second per-ticker timeout handler. -/
  | globalTimeout
  /-- `main.py:1056`, when the loop inspects the completed result. -/
  | late
  /-- `main.py:1139`, inside the per-candidate exception handler. -/
  | onError
deriving DecidableEq, Repr

/-- How the judge step resolves (`main.py:1602-1644`): the
`asyncio.wait_for` wrapper either times out or delivers the inner
`call_agent` outcome. -/
inductive JudgeWait where
  | timedOut
  | inner (o : CallOutcome)
deriving DecidableEq, Repr

/-- Per-candidate environment: the value each skip-set read observes
and the outcome of each collaborator call.  The persisted skip set is
append-only (`add_skipped`), but monotonicity across checkpoints is not
assumed unless a claim needs it. -/
structure DebateEnv where
  /-- `main.py:895`: a usable API key is configured (real debate). -/
  useReal : Bool := true
  skip : SkipCheckpoint → Bool
  bull : CallOutcome := .timeout
  bear : CallOutcome := .timeout
  regime : CallOutcome := .timeout
  value : CallOutcome := .timeout
  judgeWait : JudgeWait := .timedOut
  /-- The 20-second `asyncio.wait_for` at `main.py:970-975` fired. -/
  hitGlobalTimeout : Bool := false

/-- The exceptions that can escape the per-candidate `try` block of the
debate loop. -/
inductive DebateErr where
  /-- `ValueError("Ticker skipped by user")`. -/
  | skipped
  /-- `asyncio.TimeoutError` re-raised by the 20-second wrapper. -/
  | timeout
deriving DecidableEq, Repr

/-- `str(e)[:200]`; only `DebateErr.skipped` makes the
`"skipped by user" in error_str.lower()` test at `main.py:1140` true. -/
def DebateErr.msg : DebateErr → String
  | .skipped => "Ticker skipped by user"
  | .timeout => ""

/-- The per-candidate debate record built by
`run_single_debate_with_news` (`main.py:1657-1683`): the four role
outputs, the judge dict, and the normalized final verdict. -/
structure SingleDebate where
  bull : AgentDict
  bear : AgentDict
  regime : AgentDict
  value : AgentDict
  judge : AgentDict
  finalVerdict : Verdict
  finalConfidence : Int
deriving DecidableEq, Repr

/-- Python truthiness of an optional string (`None` and `""` are falsy). -/
def pyFalsyStr : Option String → Bool
  | none => true
  | some s => s = ""

/-- Python truthiness of an optional number (`None` and `0` are falsy). -/
def pyFalsyInt : Option Int → Bool
  | none => true
  | some n => n = 0

/-- `main.py:1608-1614`: fill missing/falsy judge fields (`verdict` →
`"HOLD"`, `confidence` → `50`). -/
def fillJudge (j : AgentDict) : AgentDict :=
  let j1 := if pyFalsyStr j.verdict then { j with verdict := some "HOLD" } else j
  if pyFalsyInt j1.confidence then { j1 with confidence := some 50 } else j1

/-- `main.py:1622-1630`: the deterministic judge fallback on timeout —
HOLD at confidence 30, flagged `judge_timeout`. -/
def judgeTimeoutFallback : AgentDict :=
  { agent := "judge", verdict := some "HOLD", confidence := some 30,
    error := some "Timeout", judge_timeout := true }

/-- `main.py:1646-1683`: assemble the returned debate record; the final
verdict is the judge verdict normalized (`main.py:1648-1655`) and the
final confidence is `judge.get('confidence', 50)`. -/
def finishDebate (b be re va j : AgentDict) : SingleDebate :=
  { bull := b, bear := be, regime := re, value := va, judge := j,
    finalVerdict := normalizeVerdict j.verdict,
    finalConfidence := j.confidence.getD 50 }

/-- `run_single_debate_with_news` (`main.py:1303-1683`), returning the
debate record or the raised exception, together with the list of
collaborator calls actually issued.  The news fetch
(`fetch_news_for_ticker`, `main.py:473-546`) catches every error and
always returns a dict, so it cannot fail the candidate.  The four role
calls are gathered with `return_exceptions=True`; any skip cancellation
among the results re-raises as `ValueError("Ticker skipped by user")`
(`main.py:1557-1565`). -/
def run_single_debate_with_news (env : DebateEnv) : Except DebateErr SingleDebate × List String :=
  let newsCalls : List String := ["news"]
  if env.skip .afterNews then (.error .skipped, newsCalls)
  else
    let roleCalls := newsCalls
      ++ (if env.bull.callMade then ["bull"] else [])
      ++ (if env.bear.callMade then ["bear"] else [])
      ++ (if env.regime.callMade then ["regime"] else [])
      ++ (if env.value.callMade then ["value"] else [])
    match call_agent "bull" env.bull, call_agent "bear" env.bear,
        call_agent "regime" env.regime, call_agent "value" env.value with
    | .ok b, .ok be, .ok re, .ok va =>
      if env.skip .afterAgents then (.error .skipped, roleCalls)
      else if env.skip .preJudge then (.error .skipped, roleCalls)
      else
        match env.judgeWait with
        | .timedOut =>
          if env.skip .judgeTimeout then (.error .skipped, roleCalls ++ ["judge"])
          else (.ok (finishDebate b be re va judgeTimeoutFallback), roleCalls ++ ["judge"])
        | .inner o =>
          let jCalls := roleCalls ++ (if o.callMade then ["judge"] else [])
          match call_agent "judge" o with
          | .error () => (.error .skipped, jCalls)
          | .ok j => (.ok (finishDebate b be re va (fillJudge j)), jCalls)
    | _, _, _, _ => (.error .skipped, roleCalls)

/-- The mock debate built when no API key is configured
(`main.py:985-1053`); only the fields the loop later reads are carried
(prose elided). -/
def mockDebate (score : ScoreEntry) : SingleDebate :=
  let verdictStr : String :=
    if 70 ≤ score.rocket_score then "BUY"
    else if 50 ≤ score.rocket_score then "HOLD" else "SELL"
  let confidence : Int := min 85 (max 20 score.rocket_score)
  { bull := { agent := "bull", verdict := some verdictStr, confidence := some confidence }
    bear := { agent := "bear"
              verdict := some (if verdictStr = "BUY" then "HOLD" else verdictStr)
              confidence := some (max 30 (100 - confidence)) }
    regime := { agent := "regime", confidence := some 60 }
    value := { agent := "value", verdict := some verdictStr, confidence := some confidence }
    judge := { verdict := some verdictStr
               confidence := some confidence
               tags := some (score.tags.take 4) }
    finalVerdict := normalizeVerdict (some verdictStr)
    finalConfidence := confidence }

/-- One candidate's entry of `summary['byTicker']`
(`main.py:929-938`, `1106-1114`, `1192-1201`). -/
structure TickerRecord where
  verdict : Verdict
  confidence : Int
  rocket_score : Int
  rocket_rank : Nat
  sector : String
  tags : List String
  selection_group : String
  skipped : Bool := false
  promoted_from_hold : Bool := false
  error : Option String := none
deriving DecidableEq, Repr

instance : Inhabited TickerRecord :=
  ⟨{ verdict := .HOLD, confidence := 0, rocket_score := 0, rocket_rank := 0,
     sector := "Unknown", tags := [], selection_group := "" }⟩

/-- The running `summary` dict of the debate loop (`main.py:900-907`). -/
structure Summary where
  buy : List String := []
  hold : List String := []
  sell : List String := []
  skipped : List String := []
  byTicker : String → Option TickerRecord := fun _ => none
  candidateCount : Nat := 0

/-- Dict write `summary['byTicker'][t] = r`. -/
def updateBT (f : String → Option TickerRecord) (t : String) (r : TickerRecord) :
    String → Option TickerRecord :=
  fun t' => if t' = t then some r else f t'

/-- The skipped marker record (`main.py:929-938`): `skipped=True`,
verdict forced to HOLD, confidence 0, empty tags. -/
def skipRecord (cand : Candidate) (score : ScoreEntry) (rank : Nat) : TickerRecord :=
  { verdict := .HOLD, confidence := 0, rocket_score := score.rocket_score,
    rocket_rank := rank, sector := score.sector, tags := [],
    selection_group := cand.selection_group, skipped := true }

/-- The errored-to-HOLD record (`main.py:1192-1201`). -/
def errorRecord (cand : Candidate) (score : ScoreEntry) (rank : Nat) (msg : String) :
    TickerRecord :=
  { verdict := .HOLD, confidence := 0, rocket_score := score.rocket_score,
    rocket_rank := rank, sector := score.sector, tags := [],
    selection_group := cand.selection_group, error := some msg }

/-- Record a skipped candidate (`main.py:928-939`, `1065-1076`,
`1149-1160`): appended to `skipped` **and** to `hold`. -/
def applySkip (s : Summary) (t : String) (r : TickerRecord) : Summary :=
  { s with
      skipped := s.skipped ++ [t]
      hold := s.hold ++ [t]
      byTicker := updateBT s.byTicker t r }

/-- Record an errored candidate (`main.py:1192-1202`): `byTicker` entry
plus `hold` membership. -/
def applyError (s : Summary) (t : String) (r : TickerRecord) : Summary :=
  { s with hold := s.hold ++ [t], byTicker := updateBT s.byTicker t r }

/-- `main.py:1088-1121`: extract the judge verdict from a completed
debate, normalize it, and classify the ticker into buy/hold/sell. -/
def classifyDebate (s : Summary) (t : String) (cand : Candidate) (score : ScoreEntry)
    (rank : Nat) (d : SingleDebate) : Summary :=
  let verdict := normalizeVerdict d.judge.verdict
  let confidence := d.judge.confidence.getD 50
  let tags := (match d.judge.tags with
    | some (x :: xs) => x :: xs
    | _ => score.tags).take 4
  let r : TickerRecord :=
    { verdict := verdict, confidence := confidence,
      rocket_score := score.rocket_score, rocket_rank := rank,
      sector := score.sector, tags := tags,
      selection_group := cand.selection_group }
  { s with
      byTicker := updateBT s.byTicker t r
      buy := if verdict = .BUY then s.buy ++ [t] else s.buy
      hold := if verdict = .HOLD then s.hold ++ [t] else s.hold
      sell := if verdict = .SELL then s.sell ++ [t] else s.sell }

/-- The per-candidate `except` handler (`main.py:1136-1202`): a skip
exception with the ticker observed in the skip set is recorded as a
skip; anything else becomes the errored-to-HOLD record. -/
def handleError (env : DebateEnv) (s : Summary) (cand : Candidate)
    (score : ScoreEntry) (rank : Nat) (e : DebateErr) : Summary :=
  if e = .skipped ∧ env.skip .onError then
    applySkip s cand.ticker (skipRecord cand score rank)
  else
    applyError s cand.ticker (errorRecord cand score rank e.msg)

/-- One iteration of the debate loop (`main.py:910-1202`) for a
candidate whose score entry was found, returning the updated summary
and the collaborator calls issued for this candidate. -/
def processCandidate (env : DebateEnv) (cand : Candidate) (score : ScoreEntry)
    (rank : Nat) (s : Summary) : Summary × List String :=
  let t := cand.ticker
  if env.skip .preLoop then
    -- main.py:918-949: pre-check, no calls made
    (applySkip s t (skipRecord cand score rank), [])
  else if env.useReal then
    if env.skip .preStart then
      -- main.py:963-966: raise before the debate starts
      (handleError env s cand score rank .skipped, [])
    else
      let (res, calls) := run_single_debate_with_news env
      if env.hitGlobalTimeout then
        -- main.py:976-983: the 20s wrapper fired; the inner result is lost
        if env.skip .globalTimeout then (handleError env s cand score rank .skipped, calls)
        else (handleError env s cand score rank .timeout, calls)
      else
        match res with
        | .error e => (handleError env s cand score rank e, calls)
        | .ok d =>
          -- main.py:1055-1086: late skip check before using the result
          if env.skip .late then (applySkip s t (skipRecord cand score rank), calls)
          else (classifyDebate s t cand score rank d, calls)
  else
    -- main.py:984-1053: mock debate, no collaborator calls
    let d := mockDebate score
    if env.skip .late then (applySkip s t (skipRecord cand score rank), [])
    else (classifyDebate s t cand score rank d, [])

/-- The debate loop body over the remaining candidates
(`main.py:910-1202`); a candidate whose ticker has no score entry is
passed over (`main.py:914-916`). -/
def debateLoopGo (envs : Nat → DebateEnv) (scores : String → Option ScoreEntry)
    (rank : String → Nat) : Nat → List Candidate → Summary → Summary
  | _, [], s => s
  | i, c :: rest, s =>
    match scores c.ticker with
    | none => debateLoopGo envs scores rank (i + 1) rest s
    | some sc =>
      debateLoopGo envs scores rank (i + 1) rest
        (processCandidate (envs i) c sc (rank c.ticker) s).1

/-- The full debate loop starting from the fresh summary
(`main.py:900-907`). -/
def run_debate_loop (envs : Nat → DebateEnv) (cands : List Candidate)
    (scores : String → Option ScoreEntry) (rank : String → Nat) : Summary :=
  debateLoopGo envs scores rank 0 cands { candidateCount := cands.length }

/-! ## Post-debate selection (`main.py:1207-1254`) -/

def MIN_BUY : Nat := 8

def MAX_BUY : Nat := 12

/-- The sort key `(-confidence, -rocket_score)` used both for promotion
(`main.py:1217-1219`) and for the final-buys ordering
(`main.py:1237`, `1250`): descending lexicographic on
(confidence, rocket_score); `mergeSort` with it is Python's stable
`sort`. -/
def confScoreDescLE (a b : TickerRecord) : Bool :=
  decide (b.confidence < a.confidence) ||
    (decide (a.confidence = b.confidence) && decide (b.rocket_score ≤ a.rocket_score))

/-- `main.py:1213-1216`: the HOLD tickers paired with their `byTicker`
records.  (Python would raise `KeyError` on a missing key; in every
loop-produced summary each `hold` member has an entry, so the
`Inhabited` default is never read.) -/
def holdCandidates (s : Summary) : List (String × TickerRecord) :=
  s.hold.map (fun t => (t, (s.byTicker t).getD default))

/-- `main.py:1217-1222`: the promoted prefix — HOLDs sorted by
descending (confidence, score), first `MIN_BUY - len(buy)` taken. -/
def promotedPairs (s : Summary) : List (String × TickerRecord) :=
  ((holdCandidates s).mergeSort (fun a b => confScoreDescLE a.2 b.2)).take
    (MIN_BUY - s.buy.length)

/-- `main.py:1212-1228`: if the BUY count is below `MIN_BUY`, promote
the top HOLD candidates — appended to `buy`, removed from `hold`
(`list.remove`, first occurrence), `byTicker` rewritten with verdict
BUY and `promoted_from_hold=True`. -/
def promote (s : Summary) : Summary :=
  if s.buy.length < MIN_BUY then
    let promoted := promotedPairs s
    { s with
      buy := s.buy ++ promoted.map Prod.fst
      hold := promoted.foldl (fun h p => h.erase p.1) s.hold
      byTicker := promoted.foldl
        (fun f p => updateBT f p.1
          { p.2 with verdict := .BUY, promoted_from_hold := true }) s.byTicker }
  else s

/-- One entry of `final_buys.json`'s `items`
(`main.py:1233-1236`, `1246-1248`): the `byTicker` record plus a
conviction tag. -/
structure FinalBuyItem where
  ticker : String
  data : TickerRecord
  conviction : String
deriving DecidableEq, Repr

/-- `main.py:1230-1254`: build the eligible set handed to the
optimizer — the BUY records sorted by descending (confidence, score),
capped at `MAX_BUY`, then padded back up to `MIN_BUY` from the
remaining HOLDs if still short. -/
def build_final_buys (s : Summary) : List FinalBuyItem :=
  let cands := s.buy.map
    (fun t => FinalBuyItem.mk t ((s.byTicker t).getD default) "high")
  let sorted := cands.mergeSort (fun a b => confScoreDescLE a.data b.data)
  let final := sorted.take MAX_BUY
  if final.length < MIN_BUY then
    let remaining := s.hold.map
      (fun t => FinalBuyItem.mk t ((s.byTicker t).getD default) "low")
    let rsorted := remaining.mergeSort (fun a b => confScoreDescLE a.data b.data)
    final ++ rsorted.take (MIN_BUY - final.length)
  else final

/-- The post-debate selection step as a whole: promotion followed by the
final-buys construction (which only reads the summary). -/
def post_debate (s : Summary) : Summary × List FinalBuyItem :=
  (promote s, build_final_buys (promote s))

/-- `run_debate_pipeline` (`main.py:841-1290`) from loaded scores to the
final eligible set: sort descending (`main.py:866`), build the rank map
(`main.py:867`) and the ticker-score dict (`main.py:868`), select
candidates, run the per-candidate loop, then the post-debate step. -/
def run_debate_pipeline (envs : Nat → DebateEnv) (scores : List ScoreEntry)
    (extras : List String) : Summary × List FinalBuyItem :=
  let sorted := scores.mergeSort scoreDescLE
  let rm := rankMap sorted
  let cands := select_debate_candidates sorted rm extras
  post_debate (run_debate_loop envs cands (tickerScores scores) rm)

/-! ## Claims C1, C2: skip semantics of the debate loop -/

/-- **C2.** A candidate whose ticker is already in the skip set when the
loop's pre-check reads it (`main.py:918-949`) is recorded with the
skipped marker — `skipped=true`, verdict HOLD, confidence 0 — joins both
the `skipped` and `hold` lists, leaves `buy`/`sell` untouched, and zero
collaborator calls are made (no news fetch, no role call, no judge
call); the loop then advances to the next candidate. -/
theorem preloop_skip_makes_no_calls (env : DebateEnv) (cand : Candidate)
    (score : ScoreEntry) (rank : Nat) (s : Summary)
    (h : env.skip .preLoop = true) :
    (processCandidate env cand score rank s).2 = [] ∧
    (processCandidate env cand score rank s).1.byTicker cand.ticker
      = some (skipRecord cand score rank) ∧
    (skipRecord cand score rank).skipped = true ∧
    (skipRecord cand score rank).verdict = .HOLD ∧
    (skipRecord cand score rank).confidence = 0 ∧
    (processCandidate env cand score rank s).1.skipped = s.skipped ++ [cand.ticker] ∧
    (processCandidate env cand score rank s).1.hold = s.hold ++ [cand.ticker] ∧
    (processCandidate env cand score rank s).1.buy = s.buy ∧
    (processCandidate env cand score rank s).1.sell = s.sell := by
  simp [processCandidate, h, applySkip, updateBT, skipRecord]

/-- Witness environment: skip observed only at the pre-loop check. -/
def envPreLoopSkip : DebateEnv :=
  { skip := fun c => decide (c = .preLoop)
    judgeWait := .inner (.success { verdict := some "ENTER", confidence := some 80 }) }

/-- Witness for C2 at a concrete candidate. -/
theorem preloop_skip_makes_no_calls_witness :
    envPreLoopSkip.skip .preLoop = true ∧
    (processCandidate envPreLoopSkip ⟨"AAPL", 50, "Tech", 1, "top23"⟩
      ⟨"AAPL", 50, "Tech", []⟩ 1 {}).2 = [] ∧
    (processCandidate envPreLoopSkip ⟨"AAPL", 50, "Tech", 1, "top23"⟩
      ⟨"AAPL", 50, "Tech", []⟩ 1 {}).1.skipped = [] ++ ["AAPL"] :=
  ⟨by decide,
    (preloop_skip_makes_no_calls envPreLoopSkip ⟨"AAPL", 50, "Tech", 1, "top23"⟩
      ⟨"AAPL", 50, "Tech", []⟩ 1 {} (by decide)).1,
    (preloop_skip_makes_no_calls envPreLoopSkip ⟨"AAPL", 50, "Tech", 1, "top23"⟩
      ⟨"AAPL", 50, "Tech", []⟩ 1 {} (by decide)).2.2.2.2.2.1⟩

/-- **C1.** If the per-candidate debate completed and returned a result
(`run_single_debate_with_news` returned a debate dict — even a
successful verdict), but the ticker is in the skip set when the loop
inspects the result (`main.py:1055-1086`), the completed result is
discarded: the recorded entry is the skipped marker (`skipped=true`,
verdict HOLD, confidence 0) for **every** possible returned debate `d`,
never the returned verdict, and the ticker joins `skipped` and `hold`
but not `buy` or `sell`. -/
theorem late_skip_discards_completed_result (env : DebateEnv) (cand : Candidate)
    (score : ScoreEntry) (rank : Nat) (s : Summary) (d : SingleDebate)
    (calls : List String)
    (hpre : env.skip .preLoop = false)
    (hreal : env.useReal = true)
    (hstart : env.skip .preStart = false)
    (hgt : env.hitGlobalTimeout = false)
    (hok : run_single_debate_with_news env = (.ok d, calls))
    (hlate : env.skip .late = true) :
    (processCandidate env cand score rank s).1.byTicker cand.ticker
      = some (skipRecord cand score rank) ∧
    (skipRecord cand score rank).skipped = true ∧
    (skipRecord cand score rank).verdict = .HOLD ∧
    (skipRecord cand score rank).confidence = 0 ∧
    (processCandidate env cand score rank s).1.skipped = s.skipped ++ [cand.ticker] ∧
    (processCandidate env cand score rank s).1.hold = s.hold ++ [cand.ticker] ∧
    (processCandidate env cand score rank s).1.buy = s.buy ∧
    (processCandidate env cand score rank s).1.sell = s.sell := by
  simp [processCandidate, hpre, hreal, hstart, hgt, hok, hlate, applySkip, updateBT,
    skipRecord]

/-- Witness environment: skip observed only at the late check, all
collaborator calls succeed with a BUY verdict. -/
def envLateSkip : DebateEnv :=
  { skip := fun c => decide (c = .late)
    bull := .success { agent := "bull", verdict := some "ENTER", confidence := some 80 }
    bear := .success { agent := "bear", verdict := some "HOLD", confidence := some 40 }
    regime := .success { agent := "regime", confidence := some 60 }
    value := .success { agent := "value", verdict := some "ENTER", confidence := some 80 }
    judgeWait := .inner (.success { verdict := some "ENTER", confidence := some 90 }) }

/-- Witness for C1: the debate completed with a successful BUY verdict
(confidence 90), yet the recorded result is the skipped marker. -/
theorem late_skip_discards_completed_result_witness :
    ((run_single_debate_with_news envLateSkip).1.toOption.map SingleDebate.finalVerdict
      = some .BUY) ∧
    (processCandidate envLateSkip ⟨"AAPL", 50, "Tech", 1, "top23"⟩
      ⟨"AAPL", 50, "Tech", []⟩ 1 {}).1.byTicker "AAPL"
      = some (skipRecord ⟨"AAPL", 50, "Tech", 1, "top23"⟩ ⟨"AAPL", 50, "Tech", []⟩ 1) :=
  ⟨by decide,
    (late_skip_discards_completed_result envLateSkip ⟨"AAPL", 50, "Tech", 1, "top23"⟩
      ⟨"AAPL", 50, "Tech", []⟩ 1 {} _ _ rfl rfl rfl rfl rfl rfl).1⟩

/-! ## Claim C3: all four role calls fail -/

/-- A failed role call resolves to a returned stub whose `error` field
is set and whose `verdict`/`confidence` are absent. -/
theorem call_agent_failure_stub (a : String) (o : CallOutcome)
    (h : o.isFailure = true) :
    ∃ st, call_agent a o = .ok st ∧ st.error.isSome = true ∧
      st.verdict = none ∧ st.confidence = none := by
  cases o with
  | timeout => exact ⟨_, rfl, rfl, rfl, rfl⟩
  | httpError msg => exact ⟨_, rfl, rfl, rfl, rfl⟩
  | preSkipStub => exact absurd h (by simp [CallOutcome.isFailure])
  | preCallCancel => exact absurd h (by simp [CallOutcome.isFailure])
  | postSkipStub => exact absurd h (by simp [CallOutcome.isFailure])
  | success r => exact absurd h (by simp [CallOutcome.isFailure])

/-- Environment where all four role calls fail (timeout is the declared
default outcome) but the judge call succeeds with ENTER at confidence
90. -/
def envRolesFailJudgeBuy : DebateEnv :=
  { skip := fun _ => false
    judgeWait := .inner (.success { verdict := some "ENTER", confidence := some 90 }) }

/-- **C3, counterexample.** With all four role calls failing, the
aggregation call can still succeed, and then the candidate ends with
the judge's verdict (here BUY at confidence 90), not with the
deterministic HOLD/low-confidence fallback; the loop classifies the
candidate as a BUY.  So "the candidate ends with a deterministic
fallback verdict of HOLD at low confidence" is false as a universal
statement. -/
theorem all_roles_fail_counterexample :
    envRolesFailJudgeBuy.bull.isFailure = true ∧
    envRolesFailJudgeBuy.bear.isFailure = true ∧
    envRolesFailJudgeBuy.regime.isFailure = true ∧
    envRolesFailJudgeBuy.value.isFailure = true ∧
    ((run_single_debate_with_news envRolesFailJudgeBuy).1.toOption.map
      (fun d => (d.finalVerdict, d.finalConfidence))) = some (.BUY, 90) ∧
    (processCandidate envRolesFailJudgeBuy ⟨"AAPL", 50, "Tech", 1, "top23"⟩
      ⟨"AAPL", 50, "Tech", []⟩ 1 {}).1.buy = ["AAPL"] ∧
    ((processCandidate envRolesFailJudgeBuy ⟨"AAPL", 50, "Tech", 1, "top23"⟩
      ⟨"AAPL", 50, "Tech", []⟩ 1 {}).1.byTicker "AAPL").map
        (fun r => (r.verdict, r.confidence)) = some (.BUY, 90) := by
  decide

/-- **C3, amended.** When all four role calls fail (error or timeout),
each failed call is replaced by a stub carrying an explicit failure
marker, the aggregation (judge) call still runs over those stubs, and
no error propagates: the debate returns a record.  When the aggregation
call itself also fails, the verdict falls back to HOLD
deterministically — confidence 30 if the judge timed out
(`main.py:1622-1630`), confidence 50 if the judge call returned a
failure stub (`main.py:1608-1612`); when the aggregation call succeeds,
its own verdict stands (see the counterexample). -/
theorem normalizeVerdict_HOLD : normalizeVerdict (some "HOLD") = .HOLD := by decide

theorem all_roles_fail_stubbed_no_error (env : DebateEnv)
    (hb : env.bull.isFailure = true) (hbe : env.bear.isFailure = true)
    (hr : env.regime.isFailure = true) (hv : env.value.isFailure = true)
    (hnews : env.skip .afterNews = false)
    (hagents : env.skip .afterAgents = false)
    (hpj : env.skip .preJudge = false)
    (hjt : env.skip .judgeTimeout = false)
    (hjw : env.judgeWait ≠ .inner .preCallCancel) :
    ∃ d, (run_single_debate_with_news env).1 = .ok d ∧
      d.bull.error.isSome = true ∧ d.bear.error.isSome = true ∧
      d.regime.error.isSome = true ∧ d.value.error.isSome = true ∧
      (env.judgeWait = .timedOut →
        "judge" ∈ (run_single_debate_with_news env).2 ∧
        d.judge.judge_timeout = true ∧
        d.finalVerdict = .HOLD ∧ d.finalConfidence = 30) ∧
      (∀ o, env.judgeWait = .inner o → o.isFailure = true →
        "judge" ∈ (run_single_debate_with_news env).2 ∧
        d.finalVerdict = .HOLD ∧ d.finalConfidence = 50) ∧
      (∀ r, env.judgeWait = .inner (.success r) →
        "judge" ∈ (run_single_debate_with_news env).2) := by
  obtain ⟨stb, hstb, hstbE, -, -⟩ := call_agent_failure_stub "bull" env.bull hb
  obtain ⟨stbe, hstbe, hstbeE, -, -⟩ := call_agent_failure_stub "bear" env.bear hbe
  obtain ⟨str, hstr, hstrE, -, -⟩ := call_agent_failure_stub "regime" env.regime hr
  obtain ⟨stv, hstv, hstvE, -, -⟩ := call_agent_failure_stub "value" env.value hv
  cases hj : env.judgeWait with
  | timedOut =>
    refine ⟨finishDebate stb stbe str stv judgeTimeoutFallback, ?_⟩
    simp [run_single_debate_with_news, hnews, hagents, hpj, hjt, hj, hstb, hstbe,
      hstr, hstv, finishDebate, judgeTimeoutFallback, hstbE, hstbeE, hstrE, hstvE,
      normalizeVerdict_HOLD]
  | inner o =>
    cases ho : call_agent "judge" o with
    | error u =>
      exfalso
      cases o <;> simp_all [call_agent]
    | ok j =>
      refine ⟨finishDebate stb stbe str stv (fillJudge j), ?_⟩
      have hcalls : (run_single_debate_with_news env).1
          = .ok (finishDebate stb stbe str stv (fillJudge j)) ∧
          (o.callMade = true → "judge" ∈ (run_single_debate_with_news env).2) := by
        constructor
        · simp [run_single_debate_with_news, hnews, hagents, hpj, hj, hstb, hstbe,
            hstr, hstv, ho]
        · intro hcm
          simp [run_single_debate_with_news, hnews, hagents, hpj, hj, hstb, hstbe,
            hstr, hstv, ho, hcm]
      refine ⟨hcalls.1, ?_, ?_, ?_, ?_, ?_, ?_, ?_⟩
      · simp [finishDebate, hstbE]
      · simp [finishDebate, hstbeE]
      · simp [finishDebate, hstrE]
      · simp [finishDebate, hstvE]
      · intro h
        exact absurd h (by simp)
      · intro o' ho' hfail
        have ho'' : o' = o := by
          injection ho' with h'
          exact h'.symm
        subst ho''
        refine ⟨hcalls.2
          (by cases o' <;> simp_all [CallOutcome.isFailure, CallOutcome.callMade]), ?_⟩
        obtain ⟨st, hst, -, hstV, hstC⟩ := call_agent_failure_stub "judge" o' hfail
        rw [hst] at ho
        cases ho
        constructor
        · simp [finishDebate, fillJudge, hstV, hstC, pyFalsyStr, pyFalsyInt,
            normalizeVerdict_HOLD]
        · simp [finishDebate, fillJudge, hstV, hstC, pyFalsyStr, pyFalsyInt]
      · intro r hr'
        have hr'' : o = .success r := by
          injection hr' with h'
        subst hr''
        exact hcalls.2 (by simp [CallOutcome.callMade])

/-- Environment where all role calls and the judge call time out. -/
def envAllCallsFail : DebateEnv :=
  { skip := fun _ => false, judgeWait := .timedOut }

/-- Witness for the amended C3: with every call failing, the debate
still returns a record whose verdict is the deterministic HOLD/30
fallback, with all four role slots stubbed. -/
theorem all_roles_fail_stubbed_no_error_witness :
    envAllCallsFail.bull.isFailure = true ∧
    ((run_single_debate_with_news envAllCallsFail).1.toOption.map
      (fun d => (d.finalVerdict, d.finalConfidence, d.judge.judge_timeout,
        d.bull.error.isSome))) = some (.HOLD, 30, true, true) ∧
    "judge" ∈ (run_single_debate_with_news envAllCallsFail).2 := by
  refine ⟨by decide, by decide, ?_⟩
  obtain ⟨d, hok, -, -, -, -, htimed, -, -⟩ :=
    all_roles_fail_stubbed_no_error envAllCallsFail rfl rfl rfl rfl rfl rfl rfl rfl
      (by decide)
  exact (htimed rfl).1

/-! ## Claim C10: skipped candidates flow into hold, promotion, final buys -/

/-- The single-entry score list used for the concrete skip scenario. -/
def skipScores : List ScoreEntry := [⟨"AAPL", 50, "Tech", []⟩]

/-- **C10.** (a) Whenever a candidate's processing ends with the
candidate marked skipped (the `skipped` list grew), its record is the
skipped marker — verdict HOLD, confidence 0, `skipped=true` — and its
ticker is appended to the summary's `hold` list; (b) the promotion pool
is built from the whole `hold` list, with no exclusion of skipped
candidates; (c) concretely, on an input whose debate summary has BUY
count below `MIN_BUY`, an operator-skipped candidate is promoted and
appears in the final eligible buy set. -/
theorem skipped_candidates_reach_final_buys :
    (∀ (env : DebateEnv) (cand : Candidate) (score : ScoreEntry) (rank : Nat)
      (s : Summary),
      (processCandidate env cand score rank s).1.skipped ≠ s.skipped →
      (processCandidate env cand score rank s).1.skipped = s.skipped ++ [cand.ticker] ∧
      (processCandidate env cand score rank s).1.hold = s.hold ++ [cand.ticker] ∧
      (processCandidate env cand score rank s).1.byTicker cand.ticker
        = some (skipRecord cand score rank)) ∧
    (∀ s : Summary, (holdCandidates s).map Prod.fst = s.hold) ∧
    ((run_debate_loop (fun _ => envPreLoopSkip)
        (select_debate_candidates skipScores (rankMap skipScores) [])
        (tickerScores skipScores) (rankMap skipScores)).buy.length < MIN_BUY ∧
      (run_debate_pipeline (fun _ => envPreLoopSkip) skipScores []).1.skipped
        = ["AAPL"] ∧
      (run_debate_pipeline (fun _ => envPreLoopSkip) skipScores []).2.map
        (fun f => (f.ticker, f.data.skipped, f.data.verdict, f.data.promoted_from_hold))
        = [("AAPL", true, .BUY, true)]) := by
  refine ⟨?_, ?_, by decide, by decide, by decide⟩
  · intro env cand score rank s hne
    by_cases hpre : env.skip .preLoop = true
    · simp [processCandidate, hpre, applySkip, updateBT]
    · replace hpre : env.skip .preLoop = false := by simpa using hpre
      by_cases hreal : env.useReal = true
      · by_cases hstart : env.skip .preStart = true
        · by_cases honerr : env.skip .onError = true
          · simp [processCandidate, hpre, hreal, hstart, handleError, honerr,
              applySkip, updateBT]
          · exfalso
            apply hne
            replace honerr : env.skip .onError = false := by simpa using honerr
            simp [processCandidate, hpre, hreal, hstart, handleError, honerr,
              applyError]
        · replace hstart : env.skip .preStart = false := by simpa using hstart
          obtain ⟨res, calls, hrs⟩ :
              ∃ r c, run_single_debate_with_news env = (r, c) := ⟨_, _, rfl⟩
          have hskipcase :
              (handleError env s cand score rank .skipped).skipped ≠ s.skipped →
              (handleError env s cand score rank .skipped).skipped = s.skipped ++ [cand.ticker] ∧
              (handleError env s cand score rank .skipped).hold = s.hold ++ [cand.ticker] ∧
              (handleError env s cand score rank .skipped).byTicker cand.ticker
                = some (skipRecord cand score rank) := by
            intro hne'
            by_cases honerr : env.skip .onError = true
            · simp [handleError, honerr, applySkip, updateBT]
            · exfalso
              apply hne'
              replace honerr : env.skip .onError = false := by simpa using honerr
              simp [handleError, honerr, applyError]
          have htimeoutcase :
              (handleError env s cand score rank .timeout).skipped = s.skipped := by
            have : ¬(DebateErr.timeout = DebateErr.skipped ∧ env.skip .onError = true) := by
              rintro ⟨h, -⟩
              cases h
            simp [handleError, this, applyError]
          by_cases hgt : env.hitGlobalTimeout = true
          · by_cases hgts : env.skip .globalTimeout = true
            · have hpc : processCandidate env cand score rank s
                  = (handleError env s cand score rank .skipped, calls) := by
                simp [processCandidate, hpre, hreal, hstart, hrs, hgt, hgts]
              rw [hpc] at hne
              simp only [hpc]
              exact hskipcase (by simpa using hne)
            · exfalso
              apply hne
              replace hgts : env.skip .globalTimeout = false := by simpa using hgts
              simp [processCandidate, hpre, hreal, hstart, hrs, hgt, hgts, htimeoutcase]
          · replace hgt : env.hitGlobalTimeout = false := by simpa using hgt
            rcases res with e | d
            · rcases e with - | -
              · have hpc : processCandidate env cand score rank s
                    = (handleError env s cand score rank .skipped, calls) := by
                  simp [processCandidate, hpre, hreal, hstart, hrs, hgt]
                rw [hpc] at hne
                simp only [hpc]
                exact hskipcase (by simpa using hne)
              · exfalso
                apply hne
                simp [processCandidate, hpre, hreal, hstart, hrs, hgt, htimeoutcase]
            · by_cases hlate : env.skip .late = true
              · simp [processCandidate, hpre, hreal, hstart, hrs, hgt, hlate,
                  applySkip, updateBT]
              · exfalso
                apply hne
                replace hlate : env.skip .late = false := by simpa using hlate
                simp [processCandidate, hpre, hreal, hstart, hrs, hgt, hlate,
                  classifyDebate]
      · replace hreal : env.useReal = false := by simpa using hreal
        by_cases hlate : env.skip .late = true
        · simp [processCandidate, hpre, hreal, hlate, applySkip, updateBT]
        · exfalso
          apply hne
          replace hlate : env.skip .late = false := by simpa using hlate
          simp [processCandidate, hpre, hreal, hlate, classifyDebate]
  · intro s
    simp only [holdCandidates, List.map_map]
    exact List.map_id'' (fun _ => rfl) s.hold

/-- Witness for C10's universal parts at a concrete skip: the pre-loop
skip grows the skipped list, so the record is the marker and the ticker
joins hold. -/
theorem skipped_candidates_reach_final_buys_witness :
    (processCandidate envPreLoopSkip ⟨"AAPL", 50, "Tech", 1, "top23"⟩
      ⟨"AAPL", 50, "Tech", []⟩ 1 {}).1.hold = [] ++ ["AAPL"] ∧
    (holdCandidates {}).map Prod.fst = ([] : List String) :=
  ⟨(skipped_candidates_reach_final_buys.1 envPreLoopSkip
      ⟨"AAPL", 50, "Tech", 1, "top23"⟩ ⟨"AAPL", 50, "Tech", []⟩ 1 {}
      (by decide)).2.1,
    skipped_candidates_reach_final_buys.2.1 {}⟩

/-! ## Claims C4, C9: the post-debate [MIN, MAX] band -/

theorem confScoreDescLE_trans (a b c : TickerRecord)
    (hab : confScoreDescLE a b = true) (hbc : confScoreDescLE b c = true) :
    confScoreDescLE a c = true := by
  simp only [confScoreDescLE, Bool.or_eq_true, Bool.and_eq_true, decide_eq_true_eq]
    at hab hbc ⊢
  rcases hab with h1 | ⟨h1, h2⟩ <;> rcases hbc with h3 | ⟨h3, h4⟩ <;>
    first
    | (left; omega)
    | (right; constructor <;> omega)

theorem confScoreDescLE_total (a b : TickerRecord) :
    confScoreDescLE a b || confScoreDescLE b a := by
  simp only [confScoreDescLE, Bool.or_eq_true, Bool.and_eq_true, decide_eq_true_eq]
  omega

theorem foldl_updateBT_not_mem :
    ∀ (l : List (String × TickerRecord)) (g : String × TickerRecord → TickerRecord)
      (f : String → Option TickerRecord) (t : String),
      t ∉ l.map Prod.fst →
      (l.foldl (fun f' p => updateBT f' p.1 (g p)) f) t = f t
  | [], _, _, _ => by simp
  | q :: rest, g, f, t => by
    intro h
    simp only [List.map_cons, List.mem_cons, not_or] at h
    rw [List.foldl_cons, foldl_updateBT_not_mem rest g _ t h.2]
    simp [updateBT, h.1]

theorem foldl_updateBT_mem :
    ∀ (l : List (String × TickerRecord)) (g : String × TickerRecord → TickerRecord)
      (f : String → Option TickerRecord),
      (l.map Prod.fst).Nodup → ∀ p ∈ l,
      (l.foldl (fun f' p => updateBT f' p.1 (g p)) f) p.1 = some (g p)
  | [], _, _ => by simp
  | q :: rest, g, f => by
    intro hnd p hp
    simp only [List.map_cons, List.nodup_cons] at hnd
    rcases List.mem_cons.mp hp with rfl | hp
    · rw [List.foldl_cons, foldl_updateBT_not_mem rest g _ p.1 hnd.1]
      simp [updateBT]
    · exact List.foldl_cons _ _ ▸ foldl_updateBT_mem rest g _ hnd.2 p hp

theorem foldl_erase_eq_diff (l : List (String × TickerRecord)) (h : List String) :
    l.foldl (fun acc p => acc.erase p.1) h = h.diff (l.map Prod.fst) := by
  rw [List.diff_eq_foldl, List.foldl_map]

theorem diff_self_nil : ∀ l : List String, l.diff l = []
  | [] => rfl
  | a :: t => by
    rw [List.diff_cons, List.erase_cons_head]
    exact diff_self_nil t

/-- The tickers of the hold-candidate pairs are exactly the hold list. -/
theorem holdCandidates_fst (s : Summary) :
    (holdCandidates s).map Prod.fst = s.hold := by
  simp only [holdCandidates, List.map_map]
  exact List.map_id'' (fun _ => rfl) s.hold

theorem length_promotedPairs (s : Summary) :
    (promotedPairs s).length = min (MIN_BUY - s.buy.length) s.hold.length := by
  simp [promotedPairs, List.length_take, holdCandidates]

theorem promotedPairs_fst_nodup (s : Summary) (hnd : s.hold.Nodup) :
    ((promotedPairs s).map Prod.fst).Nodup := by
  have hperm : (((holdCandidates s).mergeSort
      (fun a b => confScoreDescLE a.2 b.2)).map Prod.fst).Perm s.hold := by
    have := (List.mergeSort_perm (holdCandidates s)
      (fun a b => confScoreDescLE a.2 b.2)).map Prod.fst
    rw [holdCandidates_fst] at this
    exact this
  have hnd' : (((holdCandidates s).mergeSort
      (fun a b => confScoreDescLE a.2 b.2)).map Prod.fst).Nodup :=
    hperm.nodup_iff.mpr hnd
  rw [promotedPairs]
  exact hnd'.sublist ((List.take_sublist _ _).map Prod.fst)

theorem promotedPairs_pairwise (s : Summary) :
    (promotedPairs s).Pairwise (fun a b => confScoreDescLE a.2 b.2 = true) := by
  have h : ((holdCandidates s).mergeSort
      (fun a b => confScoreDescLE a.2 b.2)).Pairwise
        (fun a b => confScoreDescLE a.2 b.2 = true) :=
    List.sorted_mergeSort
      (fun a b c => confScoreDescLE_trans a.2 b.2 c.2)
      (fun a b => confScoreDescLE_total a.2 b.2) (holdCandidates s)
  exact h.sublist (List.take_sublist _ _)

/-- When the promoted tickers exhaust the hold list, the erasure loop
empties it. -/
theorem promote_hold_empty (s : Summary)
    (hlt : s.hold.length ≤ MIN_BUY - s.buy.length) :
    (promotedPairs s).foldl (fun h p => h.erase p.1) s.hold = [] := by
  have hall : promotedPairs s = (holdCandidates s).mergeSort
      (fun a b => confScoreDescLE a.2 b.2) := by
    apply List.take_of_length_le
    simp [holdCandidates, hlt]
  have hperm : ((promotedPairs s).map Prod.fst).Perm s.hold := by
    rw [hall]
    have := (List.mergeSort_perm (holdCandidates s)
      (fun a b => confScoreDescLE a.2 b.2)).map Prod.fst
    rwa [holdCandidates_fst] at this
  rw [foldl_erase_eq_diff, List.Perm.diff_left s.hold hperm, diff_self_nil]

/-- When the buy list is at most `MAX_BUY` long and, if still short of
`MIN_BUY`, the hold list is empty, the final-buys construction is just
the stable descending sort of the buy records. -/
theorem build_final_buys_of_le (s' : Summary) (h12 : s'.buy.length ≤ MAX_BUY)
    (hpad : s'.buy.length < MIN_BUY → s'.hold = []) :
    build_final_buys s' = (s'.buy.map
      (fun t => FinalBuyItem.mk t ((s'.byTicker t).getD default) "high")).mergeSort
        (fun a b => confScoreDescLE a.data b.data) := by
  rw [build_final_buys]
  have hlen : ((s'.buy.map
      (fun t => FinalBuyItem.mk t ((s'.byTicker t).getD default) "high")).mergeSort
        (fun a b => confScoreDescLE a.data b.data)).length = s'.buy.length := by
    simp
  have htake : ((s'.buy.map
      (fun t => FinalBuyItem.mk t ((s'.byTicker t).getD default) "high")).mergeSort
        (fun a b => confScoreDescLE a.data b.data)).take MAX_BUY
      = (s'.buy.map
        (fun t => FinalBuyItem.mk t ((s'.byTicker t).getD default) "high")).mergeSort
          (fun a b => confScoreDescLE a.data b.data) := by
    apply List.take_of_length_le
    rw [hlen]
    exact h12
  simp only [htake, hlen]
  by_cases h8 : s'.buy.length < MIN_BUY
  · rw [if_pos h8, hpad h8]
    simp
  · rw [if_neg h8]

/-- **C4, amended.** For every debate summary with BUY count below
`MIN_BUY` (hold tickers pairwise distinct, as the loop produces them):
the post-debate eligible set has exactly
`min MIN_BUY (BUY count + HOLD count)` members; the promoted buy list is
all original BUY members followed by the promoted HOLD tickers; the
eligible set is exactly that list (as a permutation); promotion picks
HOLDs in descending (confidence, score) order; and every promoted member
is marked `promoted_from_hold` with verdict rewritten to BUY. -/
theorem promotion_fills_to_min (s : Summary)
    (hbuy : s.buy.length < MIN_BUY)
    (hnd : s.hold.Nodup) :
    (build_final_buys (promote s)).length
      = min MIN_BUY (s.buy.length + s.hold.length) ∧
    (promote s).buy = s.buy ++ (promotedPairs s).map Prod.fst ∧
    ((build_final_buys (promote s)).map FinalBuyItem.ticker).Perm ((promote s).buy) ∧
    (promotedPairs s).Pairwise (fun a b => confScoreDescLE a.2 b.2 = true) ∧
    ∀ p ∈ promotedPairs s, (promote s).byTicker p.1
      = some { p.2 with verdict := .BUY, promoted_from_hold := true } := by
  have hpro : promote s = { s with
      buy := s.buy ++ (promotedPairs s).map Prod.fst
      hold := (promotedPairs s).foldl (fun h p => h.erase p.1) s.hold
      byTicker := (promotedPairs s).foldl
        (fun f p => updateBT f p.1
          { p.2 with verdict := .BUY, promoted_from_hold := true }) s.byTicker } := by
    rw [promote, if_pos hbuy]
  have hbuylen : (promote s).buy.length
      = s.buy.length + min (MIN_BUY - s.buy.length) s.hold.length := by
    rw [hpro]
    simp [length_promotedPairs]
  have hminmax : MIN_BUY ≤ MAX_BUY := by decide
  have h12 : (promote s).buy.length ≤ MAX_BUY := by
    rw [hbuylen]
    omega
  have hpad : (promote s).buy.length < MIN_BUY → (promote s).hold = [] := by
    intro h8
    rw [hbuylen] at h8
    have hlt : s.hold.length ≤ MIN_BUY - s.buy.length := by omega
    rw [hpro]
    exact promote_hold_empty s hlt
  have hbfb := build_final_buys_of_le (promote s) h12 hpad
  have hmapticker : ((promote s).buy.map
      (fun t => FinalBuyItem.mk t (((promote s).byTicker t).getD default) "high")).map
        FinalBuyItem.ticker = (promote s).buy := by
    rw [List.map_map]
    exact List.map_id'' (fun _ => rfl) _
  refine ⟨?_, ?_, ?_, promotedPairs_pairwise s, ?_⟩
  · rw [hbfb]
    simp only [List.length_mergeSort, List.length_map]
    rw [hbuylen]
    omega
  · rw [hpro]
  · rw [hbfb]
    have hperm := (List.mergeSort_perm ((promote s).buy.map
      (fun t => FinalBuyItem.mk t (((promote s).byTicker t).getD default) "high"))
      (fun a b => confScoreDescLE a.data b.data)).map FinalBuyItem.ticker
    rwa [hmapticker] at hperm
  · intro p hp
    rw [hpro]
    exact foldl_updateBT_mem _ _ _ (promotedPairs_fst_nodup s hnd) p hp

/-- Environment for the mock branch with no skips. -/
def envMockNoSkip : DebateEnv := { useReal := false, skip := fun _ => false }

/-- The debate summary produced by the pipeline on a single candidate
whose mock verdict is HOLD: BUY count 0, HOLD count 1. -/
def holdOnlySummary : Summary :=
  run_debate_loop (fun _ => envMockNoSkip)
    (select_debate_candidates (skipScores.mergeSort scoreDescLE)
      (rankMap (skipScores.mergeSort scoreDescLE)) [])
    (tickerScores skipScores) (rankMap (skipScores.mergeSort scoreDescLE))

/-- **C4, counterexample.** A reachable debate summary with BUY count 0
and a single HOLD: the eligible set after promotion and padding has 1
member, not `MIN_BUY = 8` — "exactly MIN members" fails whenever fewer
than MIN candidates exist in BUY ∪ HOLD. -/
theorem promotion_fills_to_min_counterexample :
    holdOnlySummary.buy.length < MIN_BUY ∧
    holdOnlySummary.buy = [] ∧
    holdOnlySummary.hold = ["AAPL"] ∧
    (build_final_buys (promote holdOnlySummary)).length = 1 ∧
    ¬(build_final_buys (promote holdOnlySummary)).length = MIN_BUY := by
  refine ⟨by decide, by decide, by decide, by decide, by decide⟩

/-- Witness for the amended C4 at the concrete one-candidate summary. -/
theorem promotion_fills_to_min_witness :
    holdOnlySummary.buy.length < MIN_BUY ∧
    (build_final_buys (promote holdOnlySummary)).length
      = min MIN_BUY (holdOnlySummary.buy.length + holdOnlySummary.hold.length) :=
  ⟨by decide,
    (promotion_fills_to_min holdOnlySummary (by decide) (by decide)).1⟩

/-- **C9.** For every debate summary with BUY count above `MAX_BUY`:
promotion does not fire (the summary is unchanged — in particular every
candidate's recorded verdict stays as recorded); the eligible set
passed to the optimizer has exactly `MAX_BUY` members, all drawn from
the BUY list; and every retained member dominates every non-retained
BUY member in the descending (confidence, score) order. -/
theorem demotion_caps_at_max (s : Summary) (hbuy : MAX_BUY < s.buy.length) :
    promote s = s ∧
    (∀ t, (post_debate s).1.byTicker t = s.byTicker t) ∧
    (post_debate s).2.length = MAX_BUY ∧
    (∀ f ∈ (post_debate s).2, f.ticker ∈ s.buy) ∧
    (∀ f ∈ (post_debate s).2, ∀ t ∈ s.buy,
      t ∉ (post_debate s).2.map FinalBuyItem.ticker →
      confScoreDescLE f.data ((s.byTicker t).getD default) = true) := by
  have hminmax : MIN_BUY ≤ MAX_BUY := by decide
  have hnp : promote s = s := by
    rw [promote, if_neg]
    omega
  have hpost1 : (post_debate s).1 = s := by rw [post_debate, hnp]
  have hpost2 : (post_debate s).2 = build_final_buys s := by rw [post_debate, hnp]
  set cands := s.buy.map
    (fun t => FinalBuyItem.mk t ((s.byTicker t).getD default) "high") with hcands
  set sorted := cands.mergeSort (fun a b => confScoreDescLE a.data b.data) with hsorted
  have hslen : sorted.length = s.buy.length := by
    rw [hsorted, List.length_mergeSort, hcands, List.length_map]
  have htlen : (sorted.take MAX_BUY).length = MAX_BUY := by
    rw [List.length_take, hslen]
    omega
  have hb : build_final_buys s = sorted.take MAX_BUY := by
    rw [build_final_buys]
    rw [if_neg]
    rw [htlen]
    omega
  have hpair : sorted.Pairwise (fun a b => confScoreDescLE a.data b.data = true) :=
    List.sorted_mergeSort
      (fun a b c => confScoreDescLE_trans a.data b.data c.data)
      (fun a b => confScoreDescLE_total a.data b.data) cands
  refine ⟨hnp, fun t => by rw [hpost1], ?_, ?_, ?_⟩
  · rw [hpost2, hb, htlen]
  · intro f hf
    rw [hpost2, hb] at hf
    have hfs : f ∈ sorted := List.mem_of_mem_take hf
    have hfc : f ∈ cands := (List.mergeSort_perm cands _).subset hfs
    obtain ⟨t, ht, rfl⟩ := List.mem_map.mp hfc
    exact ht
  · intro f hf t ht hnotsel
    rw [hpost2, hb] at hf hnotsel
    have hitem : FinalBuyItem.mk t ((s.byTicker t).getD default) "high" ∈ cands :=
      List.mem_map_of_mem _ ht
    have hitems : FinalBuyItem.mk t ((s.byTicker t).getD default) "high" ∈ sorted :=
      ((List.mergeSort_perm cands _).mem_iff).mpr hitem
    rw [← List.take_append_drop MAX_BUY sorted] at hitems
    rcases List.mem_append.mp hitems with hin | hin
    · exfalso
      apply hnotsel
      exact List.mem_map.mpr ⟨_, hin, rfl⟩
    · have hsplit := hpair
      rw [← List.take_append_drop MAX_BUY sorted, List.pairwise_append] at hsplit
      exact hsplit.2.2 f hf _ hin

/-- A summary with 13 recorded BUY tickers. -/
def buy13Summary : Summary :=
  { buy := ["B01", "B02", "B03", "B04", "B05", "B06", "B07", "B08", "B09", "B10",
      "B11", "B12", "B13"] }

/-- Witness for C9 at the 13-BUY summary. -/
theorem demotion_caps_at_max_witness :
    MAX_BUY < buy13Summary.buy.length ∧
    (post_debate buy13Summary).2.length = MAX_BUY ∧
    promote buy13Summary = buy13Summary :=
  ⟨by decide, (demotion_caps_at_max buy13Summary (by decide)).2.2.1,
    (demotion_caps_at_max buy13Summary (by decide)).1⟩

/-! ## Claim C8: external triggers and missing prior artifacts -/

/-- One `write_status` call, keeping the fields the claims are about
(`stage`, `progress.done`, `progress.total`; `main.py:181-192`). -/
structure StatusWrite where
  stage : String
  done : Nat
  total : Nat
deriving DecidableEq, Repr

/-- The run's artifact store as seen by `read_artifact`
(`main.py:160-166`): a name is readable iff a file with that name
exists. -/
def readArtifact (store : List (String × String)) (name : String) : Option String :=
  (store.find? (fun p => p.1 = name)).map Prod.snd

/-- The outcome of an HTTP trigger endpoint: an `HTTPException` with a
status code, or acceptance (the background pipeline is submitted). -/
inductive TriggerResult where
  | rejected (code : Nat)
  | accepted
deriving DecidableEq, Repr

/-- `start_debate` (`main.py:1921-1948`): 404 if the run is unknown,
400 if `rocket_scores.json` is absent — both raised before the
`write_status` call; only the accepted path writes the
`debate`-stage status. -/
def start_debate (store : List (String × String)) : TriggerResult × List StatusWrite :=
  if (readArtifact store "status.json").isNone then (.rejected 404, [])
  else if (readArtifact store "rocket_scores.json").isNone then (.rejected 400, [])
  else (.accepted, [⟨"debate", 0, 0⟩])

/-- `start_optimize` (`main.py:1951-1978`): 404 if the run is unknown,
400 if `final_buys.json` is absent — both raised before the
`write_status` call. -/
def start_optimize (store : List (String × String)) : TriggerResult × List StatusWrite :=
  if (readArtifact store "status.json").isNone then (.rejected 404, [])
  else if (readArtifact store "final_buys.json").isNone then (.rejected 400, [])
  else (.accepted, [⟨"optimize", 0, 0⟩])

/-- **C8.** For every store state: triggering the debate stage when
`rocket_scores.json` is absent is rejected with no status write and no
stage transition (the handler raises before mutating anything), and the
same holds for the optimize trigger when `final_buys.json` is absent. -/
theorem missing_artifact_trigger_rejected (store : List (String × String)) :
    (readArtifact store "rocket_scores.json" = none →
      (start_debate store).1 ≠ .accepted ∧ (start_debate store).2 = []) ∧
    (readArtifact store "final_buys.json" = none →
      (start_optimize store).1 ≠ .accepted ∧ (start_optimize store).2 = []) := by
  constructor
  · intro h
    rw [start_debate]
    by_cases hs : (readArtifact store "status.json").isNone
    · simp [hs]
    · simp [hs, h]
  · intro h
    rw [start_optimize]
    by_cases hs : (readArtifact store "status.json").isNone
    · simp [hs]
    · simp [hs, h]

/-- Witness for C8: a run with a status file but no prior-stage
artifacts. -/
theorem missing_artifact_trigger_rejected_witness :
    readArtifact [("status.json", "{}")] "rocket_scores.json" = none ∧
    (start_debate [("status.json", "{}")]).2 = [] ∧
    (start_optimize [("status.json", "{}")]).2 = [] :=
  ⟨by decide,
    ((missing_artifact_trigger_rejected [("status.json", "{}")]).1 (by decide)).2,
    ((missing_artifact_trigger_rejected [("status.json", "{}")]).2 (by decide)).2⟩

/-! ## Claim C5: `progress.total` across the error transition -/

/-- Per-ticker outcome inside the scoring loop (`main.py:333-422`). -/
inductive ScoreItemOutcome where
  /-- `main.py:351-354`: no/short data — counted done, no extra write. -/
  | insufficientData
  /-- `main.py:356-406`: scored — counted done, completion write. -/
  | scored
  /-- `main.py:408-422`: per-item exception — counted done, error-note
  write, loop continues. -/
  | itemError
deriving DecidableEq, Repr

/-- The scoring loop's status writes (`main.py:333-436`): one
"Analyzing" write before each ticker, a completion write after a scored
or errored ticker, and the final `debate_ready` write whose `done` is
the number of scored tickers. -/
def scoringLoopWrites (total : Nat) : Nat → Nat → List ScoreItemOutcome → List StatusWrite
  | _, scored, [] => [⟨"debate_ready", scored, total⟩]
  | completed, scored, o :: rest =>
    ⟨"rocket", completed, total⟩ ::
      match o with
      | .insufficientData => scoringLoopWrites total (completed + 1) scored rest
      | .scored =>
        ⟨"rocket", completed + 1, total⟩ ::
          scoringLoopWrites total (completed + 1) (scored + 1) rest
      | .itemError =>
        ⟨"rocket", completed + 1, total⟩ ::
          scoringLoopWrites total (completed + 1) scored rest

/-- The status writes of `run_rocketscore_pipeline` in `sp500` mode
(`main.py:239-466`): two early writes with the estimated total 493
(`main.py:266-271`, `276-281`), then — if the S&P 500 universe fetch
fails — the error write of the **inner** handler at `main.py:291-296`,
which hard-codes `done: 0, total: 0`; on success, two writes with the
actual count and the per-ticker loop. -/
def run_rocketscore_sp500_writes (fetch : Except String (List String))
    (items : List ScoreItemOutcome) : List StatusWrite :=
  ⟨"rocket", 0, 493⟩ :: ⟨"rocket", 0, 493⟩ ::
    match fetch with
    | .error _ => [⟨"error", 0, 0⟩]
    | .ok tickers =>
      ⟨"rocket", 0, tickers.length⟩ :: ⟨"rocket", 0, tickers.length⟩ ::
        scoringLoopWrites tickers.length 0 0 items

/-- The initial status written by `create_run` for an `sp500` run
(`main.py:1806-1816`): stage `starting` with the estimated total 493. -/
def create_run_sp500_write : StatusWrite := ⟨"starting", 0, 493⟩

/-- The status written by `run_debate_pipeline`'s catch-all error
handler (`main.py:1292-1300`): stage `error` with `done: 0, total: 0`,
regardless of the previously written total. -/
def run_debate_pipeline_error_write : StatusWrite := ⟨"error", 0, 0⟩

/-- **C5 evaluated at the failing input.** In an `sp500` run whose
S&P 500 universe fetch raises, the write trace ends with an
`error`-stage write carrying `total = 0`, although the immediately
preceding writes in the same trace carried the known total 493 — the
error transition resets the known total instead of retaining it.  The
debate pipeline's own error handler writes `total = 0` likewise. -/
theorem error_transition_resets_total :
    create_run_sp500_write ::
        run_rocketscore_sp500_writes (.error "S&P 500 fetch failed") []
      = [⟨"starting", 0, 493⟩, ⟨"rocket", 0, 493⟩, ⟨"rocket", 0, 493⟩,
          ⟨"error", 0, 0⟩] ∧
    (run_rocketscore_sp500_writes (.error "S&P 500 fetch failed") []).getLast?
      = some ⟨"error", 0, 0⟩ ∧
    (⟨"rocket", 0, 493⟩ : StatusWrite) ∈
      run_rocketscore_sp500_writes (.error "S&P 500 fetch failed") [] ∧
    run_debate_pipeline_error_write.total = 0 ∧
    run_debate_pipeline_error_write.stage = "error" := by
  refine ⟨by decide, by decide, by decide, rfl, rfl⟩

end RocketShip
